import Mathlib

/-!
Shallow embedding of the SHL Intelligent Recommendation System.

The visible source is the Streamlit boundary layer `app.py`; the engine it
calls over HTTP (`api.py`: catalog store, retriever, constraint filter) is not
part of the visible sources, so those components are modelled from the spec
and marked as such in their doc comments.  Network effects are embedded by
passing in the outcome of each HTTP call explicitly (`HttpResult`,
`ApiResult`, `FetchResult`), and the user-visible behaviour of a script run
of `main` is a list of `Event`s.
-/

/-- Outcome of a `requests.get` call: either a response with a status code,
or a raised transport exception carrying a message. -/
inductive HttpResult where
  | response (status : Nat)
  | exn (msg : String)
deriving DecidableEq, Repr

/-- One item of the `/recommend` response body, the output shape delivered
to the boundary layer (`url`, `description`, `test_type`, `duration`,
`remote_support`, `adaptive_support`). -/
structure ApiAssessment where
  url : String
  description : String
  test_type : List String
  duration : Option Nat
  remote_support : Bool
  adaptive_support : Bool
deriving DecidableEq, Repr

/-- Outcome of the `requests.post` to `/recommend`: a response with a status
code and (for status 200) a parsed body, or a raised exception. -/
inductive ApiResult where
  | response (status : Nat) (body : List ApiAssessment)
  | exn (msg : String)
deriving DecidableEq, Repr

/-- Outcome of the page fetch inside `scrape_job_description`: a fetched
page, or a raised exception with a message. -/
inductive FetchResult where
  | ok (contentDiv : Option String) (paragraphs : List String)
  | exn (msg : String)
deriving DecidableEq, Repr

/-- `check_api_health` (app.py:115): `GET /health`, `True` iff the request
completed with status 200; any exception yields `False`. -/
def check_api_health : HttpResult → Bool
  | .response s => s == 200
  | .exn _ => false

/-- User-visible actions of one script run of `main`. -/
inductive Event where
  | healthProbe (ok : Bool)
  | infoStartingBackend
  | startApiServer
  | errorFailedStart
  | apiError (msg : String)
  | recommendRequest (query : String) (max_results : Nat)
  | warnNoResults
  | showMetrics (count : Nat) (uniqueTypes : Nat) (avg : Option Nat)
  | showCard (idx : Nat) (headline : String) (rationale : String)
deriving DecidableEq, Repr

/-- `get_recommendations_from_api` (app.py:125): POST the query; on status
200 return the `recommended_assessments` body, on any other status return
the empty list, and on an exception show an error (`st.error`) and return
the empty list.  The second component collects the displayed events. -/
def get_recommendations_from_api (api : ApiResult) : List ApiAssessment × List Event :=
  match api with
  | .response s body => if s == 200 then (body, []) else ([], [])
  | .exn m => ([], [Event.apiError m])

/-- `scrape_job_description` (app.py:141): on a successful fetch, the text
of the job-description `div` when present, otherwise all paragraph texts
joined with a space; on any exception, the string `"Error: "` followed by
the exception text. -/
def scrape_job_description : FetchResult → String
  | .ok (some t) _ => t
  | .ok none ps => String.intercalate " " ps
  | .exn m => "Error: " ++ m

/-- The Streamlit slider widget `st.slider(lo, hi, default)`: it yields the
selected value when one was chosen (the widget only produces values between
`lo` and `hi`), and `default` otherwise. -/
def sliderValue (lo hi default : Nat) (choice : Option Nat) : Nat :=
  match choice with
  | none => default
  | some v => if lo ≤ v ∧ v ≤ hi then v else default

/-- Python truthiness of the `duration` field (app.py:224): `None` and `0`
are falsy, every other integer is truthy. -/
def pyTruthyDuration : Option Nat → Bool
  | none => false
  | some d => d != 0

/-- `durations = [r["duration"] for r in results if r["duration"]]`
(app.py:224): the durations that survive the truthiness test. -/
def pyDurations (results : List ApiAssessment) : List Nat :=
  results.filterMap fun r => if pyTruthyDuration r.duration then r.duration else none

/-- `int(np.mean(durations)) if durations else "N/A"` (app.py:230): `none`
renders as "N/A"; the mean of non-negative integers truncated by `int` is
natural-number division of the sum by the length. -/
def avgDurationMetric (results : List ApiAssessment) : Option Nat :=
  let ds := pyDurations results
  if ds.isEmpty then none else some (ds.sum / ds.length)

/-- `len(set(test_types))` over `test_types = [t for r in results for t in
r["test_type"]]` (app.py:225,229). -/
def uniqueTestTypeCount (results : List ApiAssessment) : Nat :=
  ((results.map (·.test_type)).flatten).dedup.length

/-- Python `s.split('.')` on a character list: split at every `'.'`,
keeping empty segments, never returning an empty list of segments. -/
def pySplitDot : List Char → List (List Char)
  | [] => [[]]
  | c :: cs =>
      match pySplitDot cs with
      | [] => [[]]
      | p :: ps => if c = '.' then [] :: p :: ps else (c :: p) :: ps

/-- Join segments back with a single `'.'` between them (the inverse
direction of `pySplitDot`). -/
def joinDot : List (List Char) → List Char
  | [] => []
  | [p] => p
  | p :: q :: ps => p ++ '.' :: joinDot (q :: ps)

/-- Python `". ".join(segments)`: join with `'.'` followed by `' '`, as in
the rationale rendering (app.py:252). -/
def joinDotSpace : List (List Char) → List Char
  | [] => []
  | [p] => p
  | p :: q :: ps => p ++ '.' :: ' ' :: joinDotSpace (q :: ps)

/-- `a['description'].split('.')[0]` (app.py:240): the card headline. -/
def headlineChars (d : List Char) : List Char :=
  (pySplitDot d).headD []

/-- `". ".join(a['description'].split('.')[1:])` (app.py:252): the card
rationale. -/
def rationaleChars (d : List Char) : List Char :=
  joinDotSpace ((pySplitDot d).drop 1)

/-- Headline of a description string. -/
def headlineOf (d : String) : String := ⟨headlineChars d.data⟩

/-- Rationale of a description string. -/
def rationaleOf (d : String) : String := ⟨rationaleChars d.data⟩

/-- The two input modes of the sidebar radio control (app.py:185). -/
inductive InputMode where
  | text
  | url
deriving DecidableEq, Repr

/-- The environment a script run of `main` executes against: the outcomes
of the two possible health probes, the widget states, and the outcomes of
the network calls the run would make. -/
structure Env where
  health1 : HttpResult
  health2 : HttpResult
  inputMode : InputMode
  textQuery : String
  urlInput : String
  runClicked : Bool
  slider : Option Nat
  fetch : FetchResult
  api : ApiResult
deriving DecidableEq, Repr

/-- The `query` variable after the input section (app.py:191-208): the text
area contents in text mode; in URL mode, the scrape result when the button
was pressed with a non-empty URL, else `None`. -/
def queryOf (env : Env) : Option String :=
  match env.inputMode with
  | .text => some env.textQuery
  | .url =>
      if env.runClicked && env.urlInput != "" then
        some (scrape_job_description env.fetch)
      else
        none

/-- The cards section (app.py:237-255): one card per result, with the
headline and rationale split out of the stored description. -/
def cardEvents (results : List ApiAssessment) : List Event :=
  results.enum.map fun p =>
    Event.showCard p.1 (headlineOf p.2.description) (rationaleOf p.2.description)

/-- The events displayed after the recommendation call returned
(app.py:217-255): any error message shown during the call, then either the
refine-your-query warning for an empty result list, or the metrics row and
one card per result. -/
def resultsEvents (res : List ApiAssessment × List Event) : List Event :=
  res.2 ++
    (if res.1.isEmpty then
      [Event.warnNoResults]
    else
      Event.showMetrics res.1.length (uniqueTestTypeCount res.1)
        (avgDurationMetric res.1) :: cardEvents res.1)

/-- The recommendations section of `main` (app.py:213-255): gated on the
button and a truthy (non-empty) query. -/
def mainBody (env : Env) : List Event :=
  match queryOf env with
  | none => []
  | some q =>
      if env.runClicked && q != "" then
        Event.recommendRequest q (sliderValue 3 15 10 env.slider) ::
          resultsEvents (get_recommendations_from_api env.api)
      else []

/-- One script run of `main` (app.py:158): probe health; on failure start
the backend and re-probe, and on a second failure stop (`st.stop`) before
any recommendation request; otherwise run the body. -/
def mainTrace (env : Env) : List Event :=
  if check_api_health env.health1 then
    Event.healthProbe true :: mainBody env
  else
    Event.healthProbe false :: Event.infoStartingBackend :: Event.startApiServer ::
      (if check_api_health env.health2 then
        Event.healthProbe true :: mainBody env
      else
        [Event.healthProbe false, Event.errorFailedStart])

/-- Modelled from the spec: one catalog entry of the Catalog Store (the
engine behind `api.py` is not among the visible sources).  Fields as spec
section 3: `duration_minutes` is optional, absent meaning unspecified. -/
structure AssessmentRecord where
  name : String
  description : String
  url : String
  test_type : List String
  duration_minutes : Option Nat
  remote_support : Bool
  adaptive_support : Bool
deriving DecidableEq, Repr

/-- Modelled from the spec: the constraints the Constraint Filter applies —
an optional duration ceiling and a required-test-type set. -/
structure Constraints where
  durationCeiling : Option Nat
  requiredTypes : List String
deriving DecidableEq, Repr

/-- Modelled from the spec: a duration ceiling keeps a record exactly when
its `duration_minutes` is absent or does not exceed the ceiling; no ceiling
keeps everything. -/
def durationOk (ceiling : Option Nat) (r : AssessmentRecord) : Bool :=
  match ceiling, r.duration_minutes with
  | none, _ => true
  | some _, none => true
  | some c, some d => d ≤ c

/-- Modelled from the spec: the required-test-type constraint keeps records
whose tag set intersects the required set; an empty required set is a
no-op. -/
def typeOk (required : List String) (r : AssessmentRecord) : Bool :=
  required.isEmpty || r.test_type.any (fun t => required.contains t)

/-- Modelled from the spec: the Constraint Filter of the engine —
`filter(ranked_candidates, constraints, limit)` keeps, in retrieved order,
the candidates satisfying every constraint, then truncates to `limit`. -/
def constraintFilter (ranked : List (AssessmentRecord × ℚ)) (cs : Constraints)
    (limit : Nat) : List (AssessmentRecord × ℚ) :=
  ((ranked.filter fun p => durationOk cs.durationCeiling p.1 && typeOk cs.requiredTypes p.1).take
    limit)

/-- A retrieval candidate: the record, its similarity score, and its
catalog insertion index. -/
structure Scored where
  idx : Nat
  score : ℚ
  record : AssessmentRecord
deriving DecidableEq, Repr

/-- The retrieval order: strictly higher score first, and on equal scores
the smaller catalog insertion index first. -/
def retrieveLE (a b : Scored) : Prop :=
  b.score < a.score ∨ (a.score = b.score ∧ a.idx ≤ b.idx)

instance : DecidableRel retrieveLE := fun a b => by
  unfold retrieveLE; infer_instance

instance : IsTotal Scored retrieveLE where
  total a b := by
    unfold retrieveLE
    rcases lt_trichotomy a.score b.score with h | h | h
    · exact Or.inr (Or.inl h)
    · rcases Nat.le_total a.idx b.idx with hi | hi
      · exact Or.inl (Or.inr ⟨h, hi⟩)
      · exact Or.inr (Or.inr ⟨h.symm, hi⟩)
    · exact Or.inl (Or.inl h)

instance : IsTrans Scored retrieveLE where
  trans a b c hab hbc := by
    unfold retrieveLE at *
    rcases hab with h1 | ⟨h1, i1⟩
    · rcases hbc with h2 | ⟨h2, _⟩
      · exact Or.inl (h2.trans h1)
      · exact Or.inl (h2 ▸ h1)
    · rcases hbc with h2 | ⟨h2, i2⟩
      · exact Or.inl (by rw [h1]; exact h2)
      · exact Or.inr ⟨h1.trans h2, i1.trans i2⟩

/-- Modelled from the spec: the Retriever — score every catalog record
against the query (the similarity function is abstracted as a parameter:
the cosine similarity of the spec is real-valued and has no exact computable
embedding), then sort by descending score with ties broken by catalog
insertion order.  Deterministic by construction. -/
def retrieve (score : AssessmentRecord → ℚ) (catalog : List AssessmentRecord) :
    List Scored :=
  (catalog.enum.map fun p => Scored.mk p.1 (score p.2) p.2).insertionSort retrieveLE

/-- A concrete run environment: healthy backend, text mode, a non-empty
query, button pressed, slider untouched, and a successful response with an
empty result list. -/
def envEmptySuccess : Env :=
  { health1 := .response 200, health2 := .response 200, inputMode := .text,
    textQuery := "Java developer", urlInput := "", runClicked := true,
    slider := none, fetch := .ok none [], api := .response 200 [] }

/-- The same environment, but the recommendation endpoint answers with
status 503 (a typed service failure such as an unavailable catalog). -/
def envError503 : Env := { envEmptySuccess with api := .response 503 [] }

/-- The same environment, but both health probes raise. -/
def envBothDown : Env :=
  { envEmptySuccess with health1 := .exn "refused", health2 := .exn "refused" }

/-- The same environment in URL mode, where the page fetch raises. -/
def envUrlExn : Env :=
  { envEmptySuccess with
    inputMode := .url
    urlInput := "http://jobs.example/1"
    fetch := .exn "boom" }

/-- A sample API result item with an unspecified duration. -/
def aNoDur1 : ApiAssessment :=
  { url := "u1", description := "Java test. Good fit.", test_type := ["Knowledge"],
    duration := none, remote_support := true, adaptive_support := false }

/-- A second sample API result item with an unspecified duration. -/
def aNoDur2 : ApiAssessment :=
  { url := "u2", description := "SQL test.", test_type := ["Skills"],
    duration := none, remote_support := false, adaptive_support := true }

/-- The healthy environment with a successful response whose records all
have an unspecified duration. -/
def envAllNone : Env :=
  { envEmptySuccess with api := .response 200 [aNoDur1, aNoDur2] }

/-- A catalog record with a given name and duration, for concrete filter
runs. -/
def sampleRec (nm : String) (d : Option Nat) : AssessmentRecord :=
  { name := nm, description := "Test.", url := "u", test_type := ["Ability"],
    duration_minutes := d, remote_support := true, adaptive_support := false }

/-- The ranked candidate set of the spec scenario: durations
[None, 15, 45, 60] in descending score order. -/
def sampleRanked : List (AssessmentRecord × ℚ) :=
  [(sampleRec "a" none, 4), (sampleRec "b" (some 15), 3),
   (sampleRec "c" (some 45), 2), (sampleRec "d" (some 60), 1)]

/-! ## Shared lemmas -/

theorem sliderValue_bounds (c : Option Nat) :
    3 ≤ sliderValue 3 15 10 c ∧ sliderValue 3 15 10 c ≤ 15 := by
  cases c with
  | none => simp [sliderValue]
  | some v =>
      simp only [sliderValue]
      by_cases h : 3 ≤ v ∧ v ≤ 15
      · rw [if_pos h]; exact h
      · rw [if_neg h]; omega

theorem recommendRequest_not_resultsEvents (api : ApiResult) (q : String) (mr : Nat) :
    Event.recommendRequest q mr ∉ resultsEvents (get_recommendations_from_api api) := by
  have h : ∀ res : List ApiAssessment × List Event,
      (∀ e ∈ res.2, ∃ m, e = Event.apiError m) →
      Event.recommendRequest q mr ∉ resultsEvents res := by
    intro res herr hmem
    unfold resultsEvents at hmem
    rcases List.mem_append.1 hmem with h2 | h2
    · obtain ⟨m, hm⟩ := herr _ h2
      simp at hm
    · by_cases hb : res.1.isEmpty = true
      · rw [if_pos hb] at h2
        simp at h2
      · rw [if_neg hb] at h2
        rcases List.mem_cons.1 h2 with h3 | h3
        · simp at h3
        · simp [cardEvents] at h3
  cases api with
  | response s body =>
      refine h _ ?_
      by_cases h200 : (s == 200) = true <;> simp [get_recommendations_from_api, h200]
  | exn m =>
      refine h _ ?_
      intro e he
      simp only [get_recommendations_from_api, List.mem_singleton] at he
      exact ⟨m, he⟩

theorem mainTrace_api_congr (env : Env) (a : ApiResult)
    (h : get_recommendations_from_api a = get_recommendations_from_api env.api) :
    mainTrace { env with api := a } = mainTrace env := by
  unfold mainTrace mainBody queryOf
  simp only [h]

/-! ## Claims -/

/-- C10: `check_api_health` is total: it returns `true` exactly when the
GET of `/health` completed with HTTP status 200, and `false` for every
other status code and for every transport-level exception. -/
theorem claim_C10 (r : HttpResult) :
    check_api_health r = true ↔ r = HttpResult.response 200 := by
  cases r with
  | response s => simp [check_api_health]
  | exn m => simp [check_api_health]

/-- C2: when the service returns success with no matches, the boundary
layer receives the empty list (and no error event), and the script run
renders the refine-your-query warning instead of recommendations. -/
theorem claim_C2 (env : Env) (q : String)
    (hh : check_api_health env.health1 = true)
    (hq : queryOf env = some q) (hne : q ≠ "")
    (hrun : env.runClicked = true)
    (hapi : env.api = ApiResult.response 200 []) :
    get_recommendations_from_api env.api = ([], []) ∧
    mainTrace env = [Event.healthProbe true,
      Event.recommendRequest q (sliderValue 3 15 10 env.slider),
      Event.warnNoResults] := by
  have hg : get_recommendations_from_api env.api = ([], []) := by rw [hapi]; rfl
  have hbq : (q != "") = true := bne_iff_ne.mpr hne
  refine ⟨hg, ?_⟩
  unfold mainTrace
  rw [hh]
  simp only [if_true]
  unfold mainBody
  rw [hq]
  simp [hrun, hbq, hg, resultsEvents]

/-- C2 witness: the concrete empty-success environment. -/
theorem claim_C2_witness :
    get_recommendations_from_api envEmptySuccess.api = ([], []) ∧
    mainTrace envEmptySuccess = [Event.healthProbe true,
      Event.recommendRequest "Java developer" (sliderValue 3 15 10 envEmptySuccess.slider),
      Event.warnNoResults] :=
  claim_C2 envEmptySuccess "Java developer" rfl rfl (by decide) rfl rfl

/-- C1 counterexample: a non-200 response (a typed failure such as an
unavailable catalog) produces a script run identical to that of an empty
successful response — the error path is presented through the same
no-matches path, refuting the claim at a concrete input. -/
theorem claim_C1_counterexample :
    mainTrace envError503 = mainTrace envEmptySuccess ∧
    Event.warnNoResults ∈ mainTrace envError503 ∧
    envError503.api ≠ envEmptySuccess.api := by
  refine ⟨by decide, by decide, by decide⟩

/-- C1 amended: only a transport exception is surfaced distinctly (an
error event before the empty result); every non-200 response is mapped to
the empty list and the whole run is indistinguishable from an empty
successful response. -/
theorem claim_C1 (env : Env) (s : Nat) (body : List ApiAssessment)
    (hs : s ≠ 200) (hapi : env.api = ApiResult.response s body) :
    get_recommendations_from_api env.api = ([], []) ∧
    mainTrace env = mainTrace { env with api := ApiResult.response 200 [] } ∧
    ∀ m : String,
      get_recommendations_from_api (ApiResult.exn m) = ([], [Event.apiError m]) := by
  have hbeq : (s == 200) = false := by simpa using hs
  have hg : get_recommendations_from_api env.api = ([], []) := by
    rw [hapi]
    simp [get_recommendations_from_api, hbeq]
  refine ⟨hg, ?_, fun m => rfl⟩
  refine (mainTrace_api_congr env (ApiResult.response 200 []) ?_).symm
  rw [hg]
  rfl

/-- C1 witness: the amended statement at the concrete 503 environment. -/
theorem claim_C1_witness :
    get_recommendations_from_api envError503.api = ([], []) ∧
    mainTrace envError503 = mainTrace { envError503 with api := ApiResult.response 200 [] } ∧
    ∀ m : String,
      get_recommendations_from_api (ApiResult.exn m) = ([], [Event.apiError m]) :=
  claim_C1 envError503 503 [] (by decide) rfl

/-- C9: `scrape_job_description` is total; on any fetch or parse exception
it returns the non-empty string `"Error: "` followed by the exception text,
and the main flow then submits that error text to the recommendation
service as if it were a genuine job description. -/
theorem claim_C9 :
    (∀ m : String,
        scrape_job_description (FetchResult.exn m) = "Error: " ++ m ∧
        scrape_job_description (FetchResult.exn m) ≠ "") ∧
    (∀ (env : Env) (m : String), env.inputMode = InputMode.url →
        env.runClicked = true → env.urlInput ≠ "" →
        env.fetch = FetchResult.exn m → check_api_health env.health1 = true →
        Event.recommendRequest ("Error: " ++ m) (sliderValue 3 15 10 env.slider) ∈
          mainTrace env) := by
  have hne : ∀ m : String, ("Error: " ++ m) ≠ "" := by
    intro m hcontra
    have hlen := congrArg String.length hcontra
    rw [String.length_append] at hlen
    rw [show ("Error: ").length = 7 from rfl, show ("" : String).length = 0 from rfl] at hlen
    omega
  constructor
  · exact fun m => ⟨rfl, hne m⟩
  · intro env m hmode hrun hurl hfetch hh
    have hbu : (env.urlInput != "") = true := bne_iff_ne.mpr hurl
    have hq : queryOf env = some ("Error: " ++ m) := by
      unfold queryOf
      rw [hmode]
      simp [hrun, hbu, hfetch, scrape_job_description]
    have hbq : (("Error: " ++ m) != "") = true := bne_iff_ne.mpr (hne m)
    unfold mainTrace
    rw [hh]
    simp only [if_true]
    unfold mainBody
    rw [hq]
    simp [hrun, hbq]

/-- C9 witness: the concrete URL-mode environment whose fetch raises. -/
theorem claim_C9_witness :
    scrape_job_description (FetchResult.exn "boom") = "Error: " ++ "boom" ∧
    Event.recommendRequest ("Error: " ++ "boom") (sliderValue 3 15 10 envUrlExn.slider) ∈
      mainTrace envUrlExn :=
  ⟨(claim_C9.1 "boom").1,
   claim_C9.2 envUrlExn "boom" rfl rfl (by decide) rfl rfl⟩

/-- C3: every recommendation request issued by the boundary layer carries a
non-empty query and a `max_results` between 3 and 15 (hence within the
contract range 1 to 50), and the untouched slider yields the default 10. -/
theorem claim_C3 :
    (∀ (env : Env) (q : String) (mr : Nat),
        Event.recommendRequest q mr ∈ mainTrace env →
        q ≠ "" ∧ 3 ≤ mr ∧ mr ≤ 15 ∧ 1 ≤ mr ∧ mr ≤ 50) ∧
    sliderValue 3 15 10 none = 10 := by
  refine ⟨?_, rfl⟩
  intro env q mr hmem
  have hbody : Event.recommendRequest q mr ∈ mainBody env := by
    unfold mainTrace at hmem
    by_cases h1 : check_api_health env.health1 = true
    · rw [h1] at hmem
      simp at hmem
      exact hmem
    · rw [if_neg (by simpa using h1)] at hmem
      by_cases h2 : check_api_health env.health2 = true
      · rw [h2] at hmem
        simp at hmem
        exact hmem
      · rw [if_neg (by simpa using h2)] at hmem
        simp at hmem
  unfold mainBody at hbody
  rcases hqq : queryOf env with _ | q'
  · rw [hqq] at hbody
    simp at hbody
  · rw [hqq] at hbody
    simp only [] at hbody
    by_cases hc : (env.runClicked && (q' != "")) = true
    · rw [if_pos hc] at hbody
      rcases List.mem_cons.1 hbody with heq | hmem2
      · obtain ⟨hq', hmr⟩ := Event.recommendRequest.inj heq
        subst hq'
        subst hmr
        have hq'ne : q ≠ "" := bne_iff_ne.mp (Bool.and_elim_right hc)
        obtain ⟨hlo, hhi⟩ := sliderValue_bounds env.slider
        exact ⟨hq'ne, hlo, hhi, by omega, by omega⟩
      · exact absurd hmem2 (recommendRequest_not_resultsEvents env.api q mr)
    · rw [if_neg hc] at hbody
      simp at hbody

/-- C3 witness: the concrete run with the default slider. -/
theorem claim_C3_witness :
    "Java developer" ≠ "" ∧ 3 ≤ 10 ∧ 10 ≤ 15 ∧ 1 ≤ 10 ∧ 10 ≤ 50 :=
  claim_C3.1 envEmptySuccess "Java developer" 10 (by decide)

/-- C6: a recommendation request is issued only after a health probe has
returned success: every occurrence of a request in a run is preceded by a
successful probe, and when both probes fail the run halts with the two
failed probes, the backend start, and the failure message — and never
issues a request. -/
theorem claim_C6 :
    (∀ (env : Env) (i : Nat) (q : String) (mr : Nat),
        (mainTrace env)[i]? = some (Event.recommendRequest q mr) →
        ∃ j, j < i ∧ (mainTrace env)[j]? = some (Event.healthProbe true)) ∧
    (∀ env : Env, check_api_health env.health1 = false →
        check_api_health env.health2 = false →
        mainTrace env = [Event.healthProbe false, Event.infoStartingBackend,
          Event.startApiServer, Event.healthProbe false, Event.errorFailedStart] ∧
        ∀ (q : String) (mr : Nat), Event.recommendRequest q mr ∉ mainTrace env) := by
  constructor
  · intro env i q mr h
    unfold mainTrace at h
    by_cases h1 : check_api_health env.health1 = true
    · rw [h1] at h
      simp only [if_true] at h
      cases i with
      | zero => simp at h
      | succ n => exact ⟨0, by omega, by simp [mainTrace, h1]⟩
    · rw [if_neg (by simpa using h1)] at h
      by_cases h2 : check_api_health env.health2 = true
      · rw [h2] at h
        simp only [if_true] at h
        rcases i with _ | _ | _ | _ | n
        · simp at h
        · simp at h
        · simp at h
        · simp at h
        · exact ⟨3, by omega, by simp [mainTrace, h1, h2]⟩
      · rw [if_neg (by simpa using h2)] at h
        rcases i with _ | _ | _ | _ | _ | n <;> simp at h
  · intro env h1 h2
    have ht : mainTrace env = [Event.healthProbe false, Event.infoStartingBackend,
        Event.startApiServer, Event.healthProbe false, Event.errorFailedStart] := by
      unfold mainTrace
      rw [if_neg (by simp [h1]), if_neg (by simp [h2])]
    refine ⟨ht, ?_⟩
    intro q mr
    rw [ht]
    simp

/-- C6 witness: the healthy run has its request preceded by the successful
probe, and the both-probes-failed run is exactly the halting trace. -/
theorem claim_C6_witness :
    (∃ j, j < 1 ∧ (mainTrace envEmptySuccess)[j]? = some (Event.healthProbe true)) ∧
    mainTrace envBothDown = [Event.healthProbe false, Event.infoStartingBackend,
      Event.startApiServer, Event.healthProbe false, Event.errorFailedStart] :=
  ⟨claim_C6.1 envEmptySuccess 1 "Java developer" 10 (by decide),
   (claim_C6.2 envBothDown (by decide) (by decide)).1⟩

/-- C4: a record with an absent duration is excluded from the displayed
average-duration metric rather than counted as zero — appending such a
record changes neither the collected durations nor the metric — and when
every returned record lacks a duration the metric reads N/A (`none`), also
in the rendered run. -/
theorem claim_C4 :
    (∀ (rs : List ApiAssessment) (r : ApiAssessment), r.duration = none →
        pyDurations (rs ++ [r]) = pyDurations rs ∧
        avgDurationMetric (rs ++ [r]) = avgDurationMetric rs) ∧
    (∀ rs : List ApiAssessment, (∀ r ∈ rs, r.duration = none) →
        avgDurationMetric rs = none) ∧
    (∀ (env : Env) (q : String) (rs : List ApiAssessment),
        check_api_health env.health1 = true → env.runClicked = true →
        queryOf env = some q → q ≠ "" →
        env.api = ApiResult.response 200 rs → rs ≠ [] →
        (∀ r ∈ rs, r.duration = none) →
        Event.showMetrics rs.length (uniqueTestTypeCount rs) none ∈ mainTrace env) := by
  have habs : ∀ (rs : List ApiAssessment) (r : ApiAssessment), r.duration = none →
      pyDurations (rs ++ [r]) = pyDurations rs := by
    intro rs r hr
    unfold pyDurations
    rw [List.filterMap_append]
    simp [hr, pyTruthyDuration]
  have hnone : ∀ rs : List ApiAssessment, (∀ r ∈ rs, r.duration = none) →
      avgDurationMetric rs = none := by
    intro rs hall
    have hd : pyDurations rs = [] := by
      refine List.filterMap_eq_nil_iff.mpr ?_
      intro a ha
      simp [hall a ha, pyTruthyDuration]
    simp [avgDurationMetric, hd]
  refine ⟨?_, hnone, ?_⟩
  · intro rs r hr
    refine ⟨habs rs r hr, ?_⟩
    unfold avgDurationMetric
    rw [habs rs r hr]
  · intro env q rs hh hrun hq hne hapi hrs hall
    have hg : get_recommendations_from_api env.api = (rs, []) := by rw [hapi]; rfl
    have hbq : (q != "") = true := bne_iff_ne.mpr hne
    have hbe : rs.isEmpty = false := by
      cases rs with
      | nil => exact absurd rfl hrs
      | cons a l => rfl
    unfold mainTrace
    rw [hh]
    simp only [if_true]
    unfold mainBody
    rw [hq]
    simp [hrun, hbq, hg, resultsEvents, hbe, hnone rs hall]

/-- C4 witness: two returned records, both without a duration. -/
theorem claim_C4_witness :
    Event.showMetrics 2 (uniqueTestTypeCount [aNoDur1, aNoDur2]) none ∈
      mainTrace envAllNone :=
  claim_C4.2.2 envAllNone "Java developer" [aNoDur1, aNoDur2]
    rfl rfl rfl (by decide) rfl (by decide) (by decide)

/-- C5 counterexample: the headline/rationale rendering is not a lossless
round-trip — the distinct descriptions "A" and "A." render to the same
headline and the same rationale, so no recombination function recovers the
stored description from the rendered pair. -/
theorem claim_C5_counterexample :
    headlineChars ['A'] = headlineChars ['A', '.'] ∧
    rationaleChars ['A'] = rationaleChars ['A', '.'] ∧
    (['A'] : List Char) ≠ ['A', '.'] ∧
    ¬ ∃ f : List Char → List Char → List Char,
        ∀ d : List Char, f (headlineChars d) (rationaleChars d) = d := by
  refine ⟨by decide, by decide, by decide, ?_⟩
  rintro ⟨f, hf⟩
  have h1 := hf ['A']
  have h2 := hf ['A', '.']
  have e1 : headlineChars ['A', '.'] = headlineChars ['A'] := by decide
  have e2 : rationaleChars ['A', '.'] = rationaleChars ['A'] := by decide
  rw [e1, e2, h1] at h2
  exact absurd h2 (by decide)

theorem pySplitDot_ne_nil (d : List Char) : pySplitDot d ≠ [] := by
  cases d with
  | nil => simp [pySplitDot]
  | cons c cs =>
      unfold pySplitDot
      rcases pySplitDot cs with _ | ⟨p, ps⟩
      · simp
      · by_cases hc : c = '.' <;> simp [hc]

theorem joinDot_cons_cons (c : Char) (p : List Char) (ps : List (List Char)) :
    joinDot ((c :: p) :: ps) = c :: joinDot (p :: ps) := by
  cases ps with
  | nil => rfl
  | cons q qs => simp [joinDot]

theorem joinDot_pySplitDot (d : List Char) : joinDot (pySplitDot d) = d := by
  induction d with
  | nil => rfl
  | cons c cs ih =>
      rcases hs : pySplitDot cs with _ | ⟨p, ps⟩
      · exact absurd hs (pySplitDot_ne_nil cs)
      · unfold pySplitDot
        rw [hs]
        dsimp only
        by_cases hc : c = '.'
        · rw [if_pos hc]
          have hj : joinDot ([] :: p :: ps) = '.' :: joinDot (p :: ps) := rfl
          rw [hj, ← hs, ih, ← hc]
        · rw [if_neg hc, joinDot_cons_cons, ← hs, ih]

/-- C5 amended: the dot-split itself loses no characters — the headline
(first split segment) rejoined with the remaining split segments using a
single dot reproduces the stored description exactly, for every
description — but the rendered pair is lossy because the rationale joins
the remaining segments with dot-space (see the counterexample). -/
theorem claim_C5 (d : List Char) :
    joinDot (headlineChars d :: (pySplitDot d).drop 1) = d := by
  rcases hs : pySplitDot d with _ | ⟨p, ps⟩
  · exact absurd hs (pySplitDot_ne_nil d)
  · have hh : headlineChars d = p := by rw [headlineChars, hs]; rfl
    rw [hh]
    have h2 := joinDot_pySplitDot d
    rw [hs] at h2
    simpa using h2

/-- C5 witness: the amended identity evaluated at a concrete two-sentence
description. -/
theorem claim_C5_witness :
    joinDot (headlineChars ['J', 'a', '.', ' ', 'B'] ::
      (pySplitDot ['J', 'a', '.', ' ', 'B']).drop 1) = ['J', 'a', '.', ' ', 'B'] :=
  claim_C5 ['J', 'a', '.', ' ', 'B']

/-- C7: under a duration ceiling (and no required types), the Constraint
Filter keeps exactly the candidates whose duration is absent or within the
ceiling — it never removes a record with absent duration — and on the spec
scenario with durations [None, 15, 45, 60] and ceiling 40 it keeps the
None and 15 records and drops 45 and 60. -/
theorem claim_C7 :
    (∀ (ranked : List (AssessmentRecord × ℚ)) (c : Nat) (p : AssessmentRecord × ℚ),
        p ∈ constraintFilter ranked ⟨some c, []⟩ ranked.length ↔
          p ∈ ranked ∧ ∀ d, p.1.duration_minutes = some d → d ≤ c) ∧
    constraintFilter sampleRanked ⟨some 40, []⟩ 4 =
      [(sampleRec "a" none, 4), (sampleRec "b" (some 15), 3)] := by
  constructor
  · intro ranked c p
    unfold constraintFilter
    rw [List.take_of_length_le (List.length_filter_le _ _), List.mem_filter]
    simp only [typeOk, List.isEmpty_nil, Bool.true_or, Bool.and_true]
    cases hd : p.1.duration_minutes with
    | none => simp [durationOk, hd]
    | some d => simp [durationOk, hd]
  · rfl

/-- C8: for every similarity function and catalog, the retrieved sequence
is sorted by non-increasing score, candidates with equal scores appear in
catalog insertion order, and the output is a permutation of the scored
catalog (so the ordering never depends on container iteration order). -/
theorem claim_C8 (score : AssessmentRecord → ℚ) (catalog : List AssessmentRecord) :
    (retrieve score catalog).Pairwise
        (fun a b => b.score ≤ a.score ∧ (a.score = b.score → a.idx ≤ b.idx)) ∧
    List.Perm (retrieve score catalog)
      (catalog.enum.map fun p => Scored.mk p.1 (score p.2) p.2) := by
  constructor
  · have hs : (retrieve score catalog).Sorted retrieveLE :=
      List.sorted_insertionSort retrieveLE _
    refine List.Pairwise.imp ?_ hs
    intro a b hab
    rcases hab with h | ⟨h1, h2⟩
    · refine ⟨le_of_lt h, ?_⟩
      intro he
      rw [he] at h
      exact absurd h (lt_irrefl _)
    · exact ⟨le_of_eq h1.symm, fun _ => h2⟩
  · exact List.perm_insertionSort _ _
